import Mathlib

/-!
Shallow embedding of `public/scripts/filters.js`: the `FilterHelper` class
with its criteria store (`filterData`), the six filter stages
(`searchFilter`, `groupFilter`, `favFilter`, `tagFilter`, `wiSearchFilter`,
`hideCharactersAlreadyInDeck`) and the pipeline executor (`applyFilters`).

JavaScript values stored in the criteria map and in entry fields are
modelled by `JSVal`; a JavaScript `TypeError` (property access on
`undefined`, or calling a method on a value that lacks it) is modelled by
`Except JsErr`.  External collaborators (the fuzzy search functions, the
`power_user.fuzzy_search` flag and the `tag_map`) are bundled in
`Externals` and treated as opaque parameters.
-/

/-- JavaScript values as they appear in the criteria store and in entry
fields: `undefined`, primitives, arrays of strings, and plain objects whose
field values are arrays of strings (the shape of the TAG criterion). -/
inductive JSVal where
  | undefined : JSVal
  | bool (b : Bool) : JSVal
  | num (n : Int) : JSVal
  | str (s : String) : JSVal
  | strList (xs : List String) : JSVal
  | obj (fields : List (String × List String)) : JSVal
deriving DecidableEq

/-- Faults the embedded code can raise (a JavaScript `TypeError`). -/
inductive JsErr where
  | typeError : JsErr
deriving DecidableEq

deriving instance DecidableEq for Except

/-- JavaScript truthiness of a value. -/
def jsTruthy : JSVal → Bool
  | .undefined => false
  | .bool b => b
  | .num n => n != 0
  | .str s => !(s == "")
  | .strList _ => true
  | .obj _ => true

/-- JavaScript `String(v)` conversion. -/
def jsToString : JSVal → String
  | .undefined => "undefined"
  | .bool b => if b then "true" else "false"
  | .num n => toString n
  | .str s => s
  | .strList xs => String.intercalate "," xs
  | .obj _ => "[object Object]"

/-- JavaScript loose equality `v == "true"` as used by the favorite
predicate (non-primitive operands are compared through their primitive
string coercion; booleans and `undefined` are never loosely equal to a
non-numeric string). -/
def jsLooseEqTrueLit : JSVal → Bool
  | .str s => s == "true"
  | .strList xs => String.intercalate "," xs == "true"
  | _ => false

/-- JSON escape for one character (quote and backslash). -/
def escChar (c : Char) : List Char :=
  if c = '"' then ['\\', '"'] else if c = '\\' then ['\\', '\\'] else [c]

/-- JSON escape for a whole string. -/
def escapeJson (s : String) : String :=
  String.mk ((s.data.map escChar).flatten)

/-- JSON rendering of a string literal. -/
def jsonQuote (s : String) : String :=
  "\"" ++ escapeJson s ++ "\""

/-- JavaScript `JSON.stringify` on the modelled values; `none` models the
`undefined` result that `JSON.stringify(undefined)` returns.  Object fields
are rendered in their stored insertion order, exactly as JavaScript does. -/
def jsonStringify : JSVal → Option String
  | .undefined => none
  | .bool b => some (if b then "true" else "false")
  | .num n => some (toString n)
  | .str s => some (jsonQuote s)
  | .strList xs => some ("[" ++ String.intercalate "," (xs.map jsonQuote) ++ "]")
  | .obj fields =>
      some ("\x7b" ++
        String.intercalate ","
          (fields.map (fun kv =>
            jsonQuote kv.1 ++ ":[" ++ String.intercalate "," (kv.2.map jsonQuote) ++ "]")) ++
        "\x7d")

/-- Field names of an object value, in stored order (`none` for
non-objects). -/
def objKeys : JSVal → Option (List String)
  | .obj fields => some (fields.map Prod.fst)
  | _ => none

/-- Deep structural equality as the specification describes it: structural
on primitives and arrays, and key-based (order-insensitive) on objects.
This is the specification's comparison, not the code's: the code compares
`JSON.stringify` serializations. -/
def deepEqSpec : JSVal → JSVal → Bool
  | .undefined, .undefined => true
  | .bool a, .bool b => a == b
  | .num a, .num b => a == b
  | .str a, .str b => a == b
  | .strList a, .strList b => a == b
  | .obj fs, .obj gs =>
      fs.all (fun kv => gs.lookup kv.1 == some kv.2) &&
      gs.all (fun kv => fs.lookup kv.1 == some kv.2)
  | _, _ => false

/-- Absence of duplicate keys in an object value (`true` for any
non-object); JavaScript object literals cannot carry duplicate keys. -/
def keysNodup : JSVal → Bool
  | .obj fields => decide ((fields.map Prod.fst).Nodup)
  | _ => true

/-- JavaScript `String.prototype.trim` (kernel-reducible model over the
character list). -/
def jsTrim (s : String) : String :=
  String.mk (((s.data.dropWhile Char.isWhitespace).reverse.dropWhile Char.isWhitespace).reverse)

/-- JavaScript `String.prototype.toLowerCase` (kernel-reducible model over
the character list). -/
def jsToLower (s : String) : String :=
  String.mk (s.data.map Char.toLower)

/-- JavaScript `String.prototype.includes`: substring containment. -/
def jsIncludes (hay sub : String) : Bool :=
  hay.data.tails.any (fun t => List.isPrefixOf sub.data t)

/-- Decimal digits prefix of a character list. -/
def takeDigits (cs : List Char) : List Char :=
  cs.takeWhile (fun c => c.isDigit)

/-- Numeric value of a list of decimal digits. -/
def digitsVal (ds : List Char) : Nat :=
  ds.foldl (fun a c => a * 10 + (c.toNat - 48)) 0

/-- JavaScript `parseInt` on a string (radix 10; `none` models `NaN`;
hexadecimal radix prefixes are not modelled). -/
def parseIntJS (s : String) : Option Int :=
  match s.data.dropWhile (fun c => c.isWhitespace) with
  | '-' :: rest =>
      let ds := takeDigits rest
      if ds.isEmpty then none else some (-(digitsVal ds : Int))
  | '+' :: rest =>
      let ds := takeDigits rest
      if ds.isEmpty then none else some (digitsVal ds)
  | cs =>
      let ds := takeDigits cs
      if ds.isEmpty then none else some (digitsVal ds)

/-- Payload (`entity.item`) of a catalog entry, with exactly the fields the
filter stages read.  A missing field is `none` / `JSVal.undefined`. -/
structure Item where
  name : Option String
  fav : JSVal
  avatar : Option String
  characters : Option (List JSVal)
deriving DecidableEq

/-- A catalog entry as the filter stages see it. -/
structure Entry where
  type : Option String
  id : JSVal
  uid : JSVal
  item : Option Item
deriving DecidableEq

/-- External collaborators of `filters.js`: the `power_user.fuzzy_search`
flag, the three fuzzy search functions and the `tag_map` index.  The
`tag_map` returns `some tags` when it holds an array for the key and `none`
when the key is absent or its value is not an array. -/
structure Externals where
  fuzzy_search : Bool
  fuzzySearchCharacters : String → List Int
  fuzzySearchGroups : String → List String
  fuzzySearchWorldInfo : List Entry → JSVal → List JSVal
  tag_map : String → Option (List String)

/-- JavaScript `Array.prototype.filter` with a predicate that may throw:
elements are tested left to right and the first fault aborts the whole
call. -/
def exceptFilter (p : α → Except JsErr Bool) : List α → Except JsErr (List α)
  | [] => .ok []
  | x :: xs =>
      match p x with
      | .error e => .error e
      | .ok b =>
          match exceptFilter p xs with
          | .error e => .error e
          | .ok ys => .ok (if b then x :: ys else ys)

/-- Boolean result of a fallible predicate call, `false` when it faulted. -/
def okTrue : Except JsErr Bool → Bool
  | .ok true => true
  | _ => false

/-- JavaScript `Array.prototype.map` with a function that may throw. -/
def exceptMap (f : α → Except JsErr β) : List α → Except JsErr (List β)
  | [] => .ok []
  | x :: xs =>
      match f x with
      | .error e => .error e
      | .ok y =>
          match exceptMap f xs with
          | .error e => .error e
          | .ok ys => .ok (y :: ys)

namespace FILTER_TYPES

/-- Filter kind key for the search criterion. -/
def SEARCH : String := "search"

/-- Filter kind key for the tag criterion. -/
def TAG : String := "tag"

/-- Filter kind key for the favorite criterion. -/
def FAV : String := "fav"

/-- Filter kind key for the group criterion. -/
def GROUP : String := "group"

/-- Filter kind key for the world-info search criterion. -/
def WORLD_INFO_SEARCH : String := "world_info_search"

end FILTER_TYPES

/-- The registered criteria kinds, in the declaration order of
`FILTER_TYPES`. -/
def registeredFilterTypes : List String :=
  [FILTER_TYPES.SEARCH, FILTER_TYPES.TAG, FILTER_TYPES.FAV,
   FILTER_TYPES.GROUP, FILTER_TYPES.WORLD_INFO_SEARCH]

/-- Keys of `filterFunctions`, in insertion order; this is the pipeline
stage order that `Object.values` enumerates. -/
def filterFunctionKeysInit : List String :=
  [FILTER_TYPES.SEARCH, FILTER_TYPES.GROUP, FILTER_TYPES.FAV,
   FILTER_TYPES.TAG, FILTER_TYPES.WORLD_INFO_SEARCH,
   "hide_characters_present_in_deck"]

/-- Initial contents of `filterData`: every registered kind at its default
value, all other keys absent (`undefined`). -/
def defaultFilterData : String → JSVal := fun k =>
  if k = FILTER_TYPES.SEARCH then .str ""
  else if k = FILTER_TYPES.GROUP then .bool false
  else if k = FILTER_TYPES.FAV then .bool false
  else if k = FILTER_TYPES.TAG then .obj [("excluded", []), ("selected", [])]
  else if k = FILTER_TYPES.WORLD_INFO_SEARCH then .str ""
  else .undefined

/-- The mutable state of a `FilterHelper` instance: the criteria map and
the (fixed) list of registered stage keys. -/
structure FilterHelper where
  filterData : String → JSVal
  filterFunctionKeys : List String

/-- A freshly constructed `FilterHelper`. -/
def defaultFilterHelper : FilterHelper :=
  ⟨defaultFilterData, filterFunctionKeysInit⟩

/-- Embedding of `setFilterData`: stores the value, and returns the number
of times the `onDataChanged` callback was invoked during the call. -/
def FilterHelper.setFilterData (h : FilterHelper) (filterType : String)
    (data : JSVal) (suppressDataChanged : Bool) : FilterHelper × Nat :=
  let oldData := h.filterData filterType
  let newData : String → JSVal := fun k => if k = filterType then data else h.filterData k
  let notifications : Nat :=
    if jsonStringify oldData ≠ jsonStringify data ∧ suppressDataChanged = false then 1 else 0
  (⟨newData, h.filterFunctionKeys⟩, notifications)

/-- Embedding of `getFilterData`: a plain property read on the criteria
map, total (a missing key reads as `undefined`). -/
def FilterHelper.getFilterData (h : FilterHelper) (filterType : String) : JSVal :=
  h.filterData filterType

/-- Member list contributed by one deck payload: `concat(undefined)`
appends the single value `undefined`. -/
def charsVals (it : Item) : List JSVal :=
  match it.characters with
  | some l => l
  | none => [.undefined]

/-- Embedding of `decks.reduce((a, b) => a.concat(b.item.characters), [])`:
faults on the first deck entry whose payload is missing. -/
def concatDeckChars : List Entry → Except JsErr (List JSVal)
  | [] => .ok []
  | d :: ds =>
      match d.item with
      | none => .error .typeError
      | some it =>
          match concatDeckChars ds with
          | .error e => .error e
          | .ok rest => .ok (charsVals it ++ rest)

/-- JavaScript `[...new Set(l)]`: first-occurrence deduplication. -/
def jsSetDedup (l : List JSVal) : List JSVal :=
  l.foldl (fun acc x => if acc.contains x then acc else acc ++ [x]) []

/-- Embedding of `hideCharactersAlreadyInDeck`. -/
def hideCharactersAlreadyInDeck (data : List Entry) : Except JsErr (List Entry) :=
  let decks := data.filter (fun item => item.type == some "deck")
  match concatDeckChars decks with
  | .error e => .error e
  | .ok allChars =>
      let characterIds := jsSetDedup allChars
      .ok (data.filter (fun item => characterIds.contains (.str (jsToString item.id)) == false))

/-- Embedding of `wiSearchFilter`. -/
def wiSearchFilter (h : FilterHelper) (ext : Externals) (data : List Entry) :
    Except JsErr (List Entry) :=
  let term := h.filterData FILTER_TYPES.WORLD_INFO_SEARCH
  if jsTruthy term = false then .ok data
  else
    let fuzzySearchResults := ext.fuzzySearchWorldInfo data term
    .ok (data.filter (fun entity => fuzzySearchResults.contains entity.uid))

/-- Embedding of the inner `isElementTagged`: faults when a character-kind
entry has no payload (`entity.item.avatar` on `undefined`). -/
def isElementTagged (ext : Externals) (entity : Entry) (tagId : String) :
    Except JsErr Bool :=
  if entity.type == some "character" then
    match entity.item with
    | none => .error .typeError
    | some it =>
        let lookupValue := match it.avatar with | some a => a | none => "undefined"
        .ok (match ext.tag_map lookupValue with
             | some tags => tags.contains tagId
             | none => false)
  else
    .ok (match ext.tag_map (jsToString entity.id) with
         | some tags => tags.contains tagId
         | none => false)

/-- Embedding of the inner `getIsTagged` (with `TAG_LOGIC_AND = true`);
`excludedOpt = none` models a stored TAG object without an `excluded`
field, whose `excluded.map` call faults. -/
def getIsTagged (ext : Externals) (selected : List String)
    (excludedOpt : Option (List String)) (entity : Entry) : Except JsErr Bool :=
  match exceptMap (fun tagId => isElementTagged ext entity tagId) selected with
  | .error e => .error e
  | .ok tagFlags =>
      let trueFlags := tagFlags.filter (fun x => x)
      let isTagged : Bool := tagFlags.length == trueFlags.length
      match excludedOpt with
      | none => .error .typeError
      | some excluded =>
          match exceptMap (fun tagId => isElementTagged ext entity tagId) excluded with
          | .error e => .error e
          | .ok excludedTagFlags =>
              let isExcluded := excludedTagFlags.contains true
              if isExcluded then .ok false
              else if decide (selected.length > 0) && !isTagged then .ok false
              else .ok true

/-- Embedding of `tagFilter`: destructures the stored TAG value and faults
exactly where the JavaScript would (`selected.length` or `excluded.length`
on `undefined`). -/
def tagFilter (h : FilterHelper) (ext : Externals) (data : List Entry) :
    Except JsErr (List Entry) :=
  match h.filterData FILTER_TYPES.TAG with
  | .obj fields =>
      match fields.lookup "selected" with
      | none => .error .typeError
      | some selected =>
          match fields.lookup "excluded" with
          | some excluded =>
              if selected.isEmpty && excluded.isEmpty then .ok data
              else exceptFilter (fun entity => getIsTagged ext selected (some excluded) entity) data
          | none =>
              if selected.isEmpty then .error .typeError
              else exceptFilter (fun entity => getIsTagged ext selected none entity) data
  | _ => .error .typeError

/-- Embedding of `favFilter`: faults on any entry without a payload
(`entity.item.fav` on `undefined`) once the criterion is truthy. -/
def favFilter (h : FilterHelper) (data : List Entry) : Except JsErr (List Entry) :=
  if jsTruthy (h.filterData FILTER_TYPES.FAV) = false then .ok data
  else
    exceptFilter (fun entity =>
      match entity.item with
      | none => .error .typeError
      | some it => .ok (jsTruthy it.fav || jsLooseEqTrueLit it.fav)) data

/-- Embedding of `groupFilter`. -/
def groupFilter (h : FilterHelper) (data : List Entry) : Except JsErr (List Entry) :=
  if jsTruthy (h.filterData FILTER_TYPES.GROUP) = false then .ok data
  else .ok (data.filter (fun entity => entity.type == some "group"))

/-- Embedding of the inner `getIsValidSearch` closure of `searchFilter`. -/
def getIsValidSearch (ext : Externals) (searchValue : String) (entity : Entry) : Bool :=
  let isGroup := entity.type == some "group"
  let isCharacter := entity.type == some "character"
  if ext.fuzzy_search then
    if isCharacter then
      match parseIntJS (jsToString entity.id) with
      | some n => (ext.fuzzySearchCharacters searchValue).contains n
      | none => false
    else if isGroup then
      (ext.fuzzySearchGroups searchValue).contains (jsToString entity.id)
    else false
  else
    match entity.item with
    | none => false
    | some it =>
        match it.name with
        | none => false
        | some n => jsIncludes (jsToLower n) searchValue

/-- Embedding of `searchFilter`: faults at `.trim()` when the stored SEARCH
criterion is truthy but not a string. -/
def searchFilter (h : FilterHelper) (ext : Externals) (data : List Entry) :
    Except JsErr (List Entry) :=
  if jsTruthy (h.filterData FILTER_TYPES.SEARCH) = false then .ok data
  else
    match h.filterData FILTER_TYPES.SEARCH with
    | .str s =>
        let searchValue := jsToLower (jsTrim s)
        .ok (data.filter (fun entity => getIsValidSearch ext searchValue entity))
    | _ => .error .typeError

/-- Embedding of `applyFilters`: folds the registered stages, in
`filterFunctions` insertion order, over the input list; a fault in any
stage propagates. -/
def applyFilters (h : FilterHelper) (ext : Externals) (data : List Entry) :
    Except JsErr (List Entry) :=
  searchFilter h ext data >>= groupFilter h >>= favFilter h >>=
    tagFilter h ext >>= wiSearchFilter h ext >>= hideCharactersAlreadyInDeck

/-- Lookup key the tag predicate derives for an entry (total companion of
`isElementTagged`, meaningful when character-kind entries carry a
payload). -/
def lookupValueOf (entity : Entry) : String :=
  if entity.type == some "character" then
    match entity.item with
    | some it => (match it.avatar with | some a => a | none => "undefined")
    | none => "undefined"
  else jsToString entity.id

/-- Total tag membership test for an entry. -/
def tagMatches (ext : Externals) (entity : Entry) (tagId : String) : Bool :=
  match ext.tag_map (lookupValueOf entity) with
  | some tags => tags.contains tagId
  | none => false

/-- Keep-condition of the tag predicate as the specification states it: not
matching any excluded tag, and (selected empty or matching every selected
tag). -/
def tagKeepSpec (ext : Externals) (selected excluded : List String) (entity : Entry) : Bool :=
  !(excluded.any (fun t => tagMatches ext entity t)) &&
    (selected.isEmpty || selected.all (fun t => tagMatches ext entity t))

/-- Keep-condition of the exact-mode search predicate as the specification
states it. -/
def exactSearchMatches (searchValue : String) (entity : Entry) : Bool :=
  match entity.item with
  | none => false
  | some it =>
      match it.name with
      | none => false
      | some n => jsIncludes (jsToLower n) searchValue

/-- Keep-condition of the fuzzy-mode search predicate as the specification
states it: character-kind with integer-parsed identifier in the character
result set, or group-kind with stringified identifier in the group result
set. -/
def fuzzySearchKeepSpec (ext : Externals) (searchValue : String) (entity : Entry) : Bool :=
  (entity.type == some "character" &&
    (match parseIntJS (jsToString entity.id) with
     | some n => (ext.fuzzySearchCharacters searchValue).contains n
     | none => false)) ||
  (entity.type == some "group" &&
    (ext.fuzzySearchGroups searchValue).contains (jsToString entity.id))

/-- Union (with multiplicity, in scan order) of the member lists of the
deck-kind entries of a list; payload-less decks contribute nothing. -/
def deckCharsOf (ds : List Entry) : List JSVal :=
  ds.foldr (fun d acc =>
    (match d.item with | some it => charsVals it | none => []) ++ acc) []

/-- Member union over the deck-kind entries of a whole input list. -/
def specDeckMembers (data : List Entry) : List JSVal :=
  deckCharsOf (data.filter (fun e => e.type == some "deck"))

/-- Output of the deck de-duplication stage as claim C9 words it: the
member identifiers are stringified and an entry is dropped when its
stringified identifier is in that stringified union. -/
def specDeckClaimOutput (data : List Entry) : List Entry :=
  let unionStr := (specDeckMembers data).map jsToString
  data.filter (fun e => !(unionStr.contains (jsToString e.id)))

/-- Trivial external collaborators: fuzzy search disabled and empty
results, empty tag index. -/
def extStub : Externals :=
  ⟨false, fun _ => [], fun _ => [], fun _ _ => [], fun _ => none⟩

/-- Character entry fixture with a payload, name, avatar and favorite
flag. -/
def aliceChar : Entry :=
  ⟨some "character", .str "1", .num 1, some ⟨some "Alice", .bool true, some "alice.png", none⟩⟩

/-- Character entry fixture that is not a favorite. -/
def bobChar : Entry :=
  ⟨some "character", .str "2", .num 2, some ⟨some "Bob", .bool false, some "bob.png", none⟩⟩

/-- Group entry fixture whose name contains the substring "alice" after
case folding. -/
def aliceGroup : Entry :=
  ⟨some "group", .str "g1", .num 3, some ⟨some "Alice Group", .undefined, none, none⟩⟩

/-- Entry fixture with no payload object at all. -/
def noItemEntry : Entry := ⟨none, .undefined, .undefined, none⟩

/-- Criteria store with the favorite criterion switched on and everything
else at its default. -/
def favOnHelper : FilterHelper :=
  ⟨fun k => if k = FILTER_TYPES.FAV then .bool true else defaultFilterData k,
   filterFunctionKeysInit⟩

/-- Criteria store with a search string set and everything else at its
default. -/
def searchHelper : FilterHelper :=
  ⟨fun k => if k = FILTER_TYPES.SEARCH then .str " ALice " else defaultFilterData k,
   filterFunctionKeysInit⟩

/-- Criteria store with one selected tag and one excluded tag. -/
def tagHelper : FilterHelper :=
  ⟨fun k => if k = FILTER_TYPES.TAG then .obj [("selected", ["a"]), ("excluded", ["x"])]
    else defaultFilterData k,
   filterFunctionKeysInit⟩

/-- Tag index fixture: the alice avatar carries tag "a", the bob avatar
carries tags "a" and "x". -/
def tagExt : Externals :=
  ⟨false, fun _ => [], fun _ => [], fun _ _ => [],
   fun key =>
     if key = "alice.png" then some ["a"]
     else if key = "bob.png" then some ["a", "x"]
     else none⟩

/-- Fuzzy search fixture: for the folded term "alice", character 1 and
group "g1" match. -/
def fuzzyExt : Externals :=
  ⟨true,
   fun sv => if sv = "alice" then [1] else [],
   fun sv => if sv = "alice" then ["g1"] else [],
   fun _ _ => [], fun _ => none⟩

/-- Deck entry fixture whose member list holds the string "1". -/
def deckStr1 : Entry :=
  ⟨some "deck", .str "d", .num 9, some ⟨none, .undefined, none, some [.str "1"]⟩⟩

/-- Deck entry fixture whose member list holds the number 1. -/
def deckNum1 : Entry :=
  ⟨some "deck", .str "d", .num 9, some ⟨none, .undefined, none, some [.num 1]⟩⟩

/-- Character entry fixture with the numeric identifier 1. -/
def charNum1 : Entry :=
  ⟨some "character", .num 1, .num 11, some ⟨some "One", .undefined, none, none⟩⟩

/-- Character entry fixture with the numeric identifier 2. -/
def charNum2 : Entry :=
  ⟨some "character", .num 2, .num 12, some ⟨some "Two", .undefined, none, none⟩⟩

/-- Character entry fixture with the string identifier "1". -/
def charStr1 : Entry :=
  ⟨some "character", .str "1", .num 13, some ⟨some "OneS", .undefined, none, none⟩⟩

/-- World-info entry fixture with uid 5 that the fuzzy matcher accepts. -/
def wiEntryA : Entry := ⟨some "wi", .str "a", .num 5, some ⟨none, .undefined, none, none⟩⟩

/-- World-info entry fixture sharing uid 5 that the fuzzy matcher
rejects. -/
def wiEntryB : Entry := ⟨some "wi", .str "b", .num 5, some ⟨none, .undefined, none, none⟩⟩

/-- Deck entry fixture whose member list captures the identifier of
`wiEntryA`. -/
def wiDeckD : Entry :=
  ⟨some "deck", .str "d", .num 6, some ⟨none, .undefined, none, some [.str "a"]⟩⟩

/-- Per-entry acceptance criterion of the world-info fuzzy search
fixture. -/
def wiMatcher : Entry → Bool := fun e => e.id != JSVal.str "b"

/-- World-info fuzzy search fixture, per-entry over the candidate list it
receives. -/
def wiExt : Externals :=
  ⟨false, fun _ => [], fun _ => [],
   fun data _ => (data.filter wiMatcher).map Entry.uid, fun _ => none⟩

/-- Criteria store with a world-info search term set and everything else at
its default. -/
def wiHelper : FilterHelper :=
  ⟨fun k => if k = FILTER_TYPES.WORLD_INFO_SEARCH then .str "x" else defaultFilterData k,
   filterFunctionKeysInit⟩


/-- Keep-condition of the favorite predicate on an entry that has a
payload; `false` for a payload-less entry (where the code would fault). -/
def favMatches (entity : Entry) : Bool :=
  match entity.item with
  | none => false
  | some it => jsTruthy it.fav || jsLooseEqTrueLit it.fav

/-! Infrastructure lemmas about the fallible array combinators. -/

theorem exceptFilter_congr {α : Type _} {p : α → Except JsErr Bool} {q : α → Bool} :
    ∀ l : List α, (∀ a ∈ l, p a = .ok (q a)) → exceptFilter p l = .ok (l.filter q)
  | [], _ => rfl
  | x :: xs, h => by
      have hx := h x (by simp)
      have hxs := exceptFilter_congr xs (fun a ha => h a (by simp [ha]))
      rw [exceptFilter, hx, hxs]
      by_cases hq : q x
      · simp [List.filter_cons, hq]
      · simp [List.filter_cons, hq]

theorem exceptFilter_ok_eq {α : Type _} {p : α → Except JsErr Bool} :
    ∀ {l r : List α}, exceptFilter p l = .ok r → r = l.filter (fun a => okTrue (p a))
  | [], r, h => by
      simp [exceptFilter] at h
      subst h
      simp
  | x :: xs, r, h => by
      rw [exceptFilter] at h
      cases hp : p x with
      | error e => rw [hp] at h; exact absurd h (by simp)
      | ok b =>
          rw [hp] at h
          cases hrec : exceptFilter p xs with
          | error e => rw [hrec] at h; exact absurd h (by simp)
          | ok ys =>
              rw [hrec] at h
              have hys := exceptFilter_ok_eq hrec
              have hr : r = if b then x :: ys else ys := by
                cases b <;> simpa using h.symm
              subst hys
              cases b with
              | true => simp [hr, List.filter_cons, okTrue, hp]
              | false => simp [hr, List.filter_cons, okTrue, hp]

theorem exceptFilter_ok_pred {α : Type _} {p : α → Except JsErr Bool} :
    ∀ {l r : List α}, exceptFilter p l = .ok r → ∀ a ∈ l, ∃ b, p a = .ok b
  | [], _, _, a, ha => by simp at ha
  | x :: xs, r, h, a, ha => by
      rw [exceptFilter] at h
      cases hp : p x with
      | error e => rw [hp] at h; exact absurd h (by simp)
      | ok b =>
          rw [hp] at h
          cases hrec : exceptFilter p xs with
          | error e => rw [hrec] at h; exact absurd h (by simp)
          | ok ys =>
              rcases List.mem_cons.mp ha with rfl | hmem
              · exact ⟨b, hp⟩
              · exact exceptFilter_ok_pred hrec a hmem

theorem exceptFilter_all_true {α : Type _} {p : α → Except JsErr Bool} {l : List α}
    (h : ∀ a ∈ l, p a = .ok true) : exceptFilter p l = .ok l := by
  have := exceptFilter_congr (p := p) (q := fun _ => true) l (by simpa using h)
  simpa using this

theorem exceptMap_congr {α β : Type _} {f : α → Except JsErr β} {g : α → β} :
    ∀ l : List α, (∀ a ∈ l, f a = .ok (g a)) → exceptMap f l = .ok (l.map g)
  | [], _ => rfl
  | x :: xs, h => by
      have hx := h x (by simp)
      have hxs := exceptMap_congr xs (fun a ha => h a (by simp [ha]))
      rw [exceptMap, hx, hxs]
      simp

theorem jsSetDedup_foldl_mem (x : JSVal) :
    ∀ (l acc : List JSVal),
      (x ∈ l.foldl (fun acc y => if acc.contains y then acc else acc ++ [y]) acc) ↔
        (x ∈ acc ∨ x ∈ l)
  | [], acc => by simp
  | y :: l, acc => by
      rw [List.foldl_cons, jsSetDedup_foldl_mem x l]
      by_cases hy : acc.contains y
      · have hy' : y ∈ acc := by simpa using hy
        simp only [hy, if_pos]
        constructor
        · rintro (h | h)
          · exact Or.inl h
          · simp [h]
        · rintro (h | h)
          · exact Or.inl h
          · rcases List.mem_cons.mp h with rfl | h
            · exact Or.inl hy'
            · exact Or.inr h
      · simp only [hy, if_neg, Bool.false_eq_true, not_false_iff]
        simp only [List.mem_append, List.mem_singleton, List.mem_cons]
        tauto

theorem jsSetDedup_mem {x : JSVal} {l : List JSVal} : x ∈ jsSetDedup l ↔ x ∈ l := by
  have h := jsSetDedup_foldl_mem x l []
  rw [jsSetDedup, h]
  simp

theorem concatDeckChars_ok_of_items :
    ∀ {ds : List Entry}, (∀ d ∈ ds, d.item.isSome) → concatDeckChars ds = .ok (deckCharsOf ds)
  | [], _ => rfl
  | d :: ds, h => by
      rcases Option.isSome_iff_exists.mp (h d (by simp)) with ⟨it, hit⟩
      have hrec := @concatDeckChars_ok_of_items ds
        (fun e he => h e (List.mem_cons_of_mem _ he))
      rw [concatDeckChars, hit, hrec]
      simp [deckCharsOf, hit]

theorem concatDeckChars_mem :
    ∀ {ds : List Entry} {cs : List JSVal}, concatDeckChars ds = .ok cs →
      ∀ x ∈ cs, ∃ d ∈ ds, ∃ it, d.item = some it ∧ x ∈ charsVals it
  | [], cs, h, x, hx => by
      simp [concatDeckChars] at h
      subst h
      simp at hx
  | d :: ds, cs, h, x, hx => by
      rw [concatDeckChars] at h
      cases hit : d.item with
      | none => rw [hit] at h; exact absurd h (by simp)
      | some it =>
          rw [hit] at h
          cases hrec : concatDeckChars ds with
          | error e => rw [hrec] at h; exact absurd h (by simp)
          | ok rest =>
              rw [hrec] at h
              have hcs : cs = charsVals it ++ rest := by
                have := h
                simp at this
                exact this.symm
              subst hcs
              rcases List.mem_append.mp hx with hx1 | hx2
              · exact ⟨d, by simp, it, hit, hx1⟩
              · rcases concatDeckChars_mem hrec x hx2 with ⟨d', hd', it', hit', hx'⟩
                exact ⟨d', by simp [hd'], it', hit', hx'⟩

theorem concatDeckChars_sublist {ds' ds : List Entry} (hsub : List.Sublist ds' ds) :
    ∀ {cs : List JSVal}, concatDeckChars ds = .ok cs →
      ∃ cs', concatDeckChars ds' = .ok cs' ∧ ∀ x ∈ cs', x ∈ cs := by
  induction hsub with
  | slnil => exact fun h => ⟨[], rfl, by simp⟩
  | @cons l₁ l₂ d hsub ih =>
      intro cs h
      rw [concatDeckChars] at h
      cases hit : d.item with
      | none => rw [hit] at h; exact absurd h (by simp)
      | some it =>
          rw [hit] at h
          cases hrec : concatDeckChars l₂ with
          | error e => rw [hrec] at h; exact absurd h (by simp)
          | ok rest =>
              rw [hrec] at h
              have hcs : cs = charsVals it ++ rest := by simp at h; exact h.symm
              subst hcs
              rcases ih hrec with ⟨cs', h1, h2⟩
              exact ⟨cs', h1, fun x hx => List.mem_append.mpr (Or.inr (h2 x hx))⟩
  | @cons₂ l₁ l₂ d hsub ih =>
      intro cs h
      rw [concatDeckChars] at h
      cases hit : d.item with
      | none => rw [hit] at h; exact absurd h (by simp)
      | some it =>
          rw [hit] at h
          cases hrec : concatDeckChars l₂ with
          | error e => rw [hrec] at h; exact absurd h (by simp)
          | ok rest =>
              rw [hrec] at h
              have hcs : cs = charsVals it ++ rest := by simp at h; exact h.symm
              subst hcs
              rcases ih hrec with ⟨cs', h1, h2⟩
              refine ⟨charsVals it ++ cs', ?_, ?_⟩
              · rw [concatDeckChars, hit, h1]
              · intro x hx
                rcases List.mem_append.mp hx with hx1 | hx2
                · exact List.mem_append.mpr (Or.inl hx1)
                · exact List.mem_append.mpr (Or.inr (h2 x hx2))

theorem except_bind_ok {α β : Type _} {x : Except JsErr α} {f : α → Except JsErr β} {r : β}
    (h : (x >>= f) = .ok r) : ∃ a, x = .ok a ∧ f a = .ok r := by
  cases x with
  | error e => simp [Bind.bind, Except.bind] at h
  | ok a => exact ⟨a, rfl, by simpa [Bind.bind, Except.bind] using h⟩

/-! Per-stage facts: each successful stage returns a sublist of its input,
and re-running a stage on a list of survivors returns it unchanged. -/

theorem searchFilter_ok_sublist {h : FilterHelper} {ext : Externals} {data out : List Entry}
    (hok : searchFilter h ext data = .ok out) : List.Sublist out data := by
  unfold searchFilter at hok
  split at hok
  · simp at hok
    exact hok ▸ List.Sublist.refl data
  · split at hok
    · simp at hok
      exact hok ▸ List.filter_sublist data
    · exact absurd hok (by simp)

theorem groupFilter_ok_sublist {h : FilterHelper} {data out : List Entry}
    (hok : groupFilter h data = .ok out) : List.Sublist out data := by
  unfold groupFilter at hok
  split at hok
  · simp at hok
    exact hok ▸ List.Sublist.refl data
  · simp at hok
    exact hok ▸ List.filter_sublist data

theorem favFilter_ok_sublist {h : FilterHelper} {data out : List Entry}
    (hok : favFilter h data = .ok out) : List.Sublist out data := by
  unfold favFilter at hok
  split at hok
  · simp at hok
    exact hok ▸ List.Sublist.refl data
  · exact (exceptFilter_ok_eq hok) ▸ List.filter_sublist data

theorem tagFilter_ok_sublist {h : FilterHelper} {ext : Externals} {data out : List Entry}
    (hok : tagFilter h ext data = .ok out) : List.Sublist out data := by
  unfold tagFilter at hok
  split at hok
  · split at hok
    · exact absurd hok (by simp)
    · split at hok
      · split at hok
        · simp at hok
          exact hok ▸ List.Sublist.refl data
        · exact (exceptFilter_ok_eq hok) ▸ List.filter_sublist data
      · split at hok
        · exact absurd hok (by simp)
        · exact (exceptFilter_ok_eq hok) ▸ List.filter_sublist data
  · exact absurd hok (by simp)

theorem wiSearchFilter_ok_sublist {h : FilterHelper} {ext : Externals} {data out : List Entry}
    (hok : wiSearchFilter h ext data = .ok out) : List.Sublist out data := by
  unfold wiSearchFilter at hok
  by_cases ht : jsTruthy (h.filterData FILTER_TYPES.WORLD_INFO_SEARCH) = false
  · simp [ht] at hok
    exact hok ▸ List.Sublist.refl data
  · simp [ht] at hok
    exact hok ▸ List.filter_sublist data

theorem hideCharactersAlreadyInDeck_ok_sublist {data out : List Entry}
    (hok : hideCharactersAlreadyInDeck data = .ok out) : List.Sublist out data := by
  unfold hideCharactersAlreadyInDeck at hok
  cases hcc : concatDeckChars (data.filter (fun item => item.type == some "deck")) with
  | error e => simp [hcc] at hok
  | ok allChars =>
      simp [hcc] at hok
      exact hok ▸ List.filter_sublist data

/-! Evaluation lemmas: each stage computed under a known criteria shape. -/

theorem searchFilter_falsy {h : FilterHelper} {ext : Externals} (data : List Entry)
    (ht : jsTruthy (h.filterData FILTER_TYPES.SEARCH) = false) :
    searchFilter h ext data = .ok data := by
  unfold searchFilter
  simp [ht]

theorem searchFilter_str {h : FilterHelper} {ext : Externals} {s : String}
    (hv : h.filterData FILTER_TYPES.SEARCH = .str s) (hs : s ≠ "") (data : List Entry) :
    searchFilter h ext data =
      .ok (data.filter (getIsValidSearch ext (jsToLower (jsTrim s)))) := by
  unfold searchFilter
  rw [hv]
  simp [jsTruthy, hs]

theorem groupFilter_falsy {h : FilterHelper} (data : List Entry)
    (ht : jsTruthy (h.filterData FILTER_TYPES.GROUP) = false) :
    groupFilter h data = .ok data := by
  unfold groupFilter
  simp [ht]

theorem groupFilter_truthy {h : FilterHelper} (data : List Entry)
    (ht : jsTruthy (h.filterData FILTER_TYPES.GROUP) = true) :
    groupFilter h data = .ok (data.filter (fun entity => entity.type == some "group")) := by
  unfold groupFilter
  simp [ht]

theorem favFilter_falsy {h : FilterHelper} (data : List Entry)
    (ht : jsTruthy (h.filterData FILTER_TYPES.FAV) = false) :
    favFilter h data = .ok data := by
  unfold favFilter
  simp [ht]

theorem favFilter_truthy_items {h : FilterHelper} {data : List Entry}
    (ht : jsTruthy (h.filterData FILTER_TYPES.FAV) = true)
    (hitems : ∀ e ∈ data, e.item.isSome) :
    favFilter h data = .ok (data.filter favMatches) := by
  unfold favFilter
  rw [ht]
  simp only [Bool.true_eq_false, if_false]
  refine exceptFilter_congr data (fun e he => ?_)
  rcases Option.isSome_iff_exists.mp (hitems e he) with ⟨it, hit⟩
  simp [hit, favMatches]

theorem wiSearchFilter_falsy {h : FilterHelper} {ext : Externals} (data : List Entry)
    (ht : jsTruthy (h.filterData FILTER_TYPES.WORLD_INFO_SEARCH) = false) :
    wiSearchFilter h ext data = .ok data := by
  unfold wiSearchFilter
  simp [ht]

theorem wiSearchFilter_truthy {h : FilterHelper} {ext : Externals} (data : List Entry)
    (ht : jsTruthy (h.filterData FILTER_TYPES.WORLD_INFO_SEARCH) = true) :
    wiSearchFilter h ext data =
      .ok (data.filter (fun entity =>
        (ext.fuzzySearchWorldInfo data (h.filterData FILTER_TYPES.WORLD_INFO_SEARCH)).contains
          entity.uid)) := by
  unfold wiSearchFilter
  simp [ht]

theorem isElementTagged_eval {ext : Externals} {e : Entry} (t : String)
    (hit : e.type = some "character" → e.item.isSome) :
    isElementTagged ext e t = .ok (tagMatches ext e t) := by
  unfold isElementTagged tagMatches lookupValueOf
  by_cases hc : (e.type == some "character") = true
  · cases hi : e.item with
    | none =>
        have := hit (by simpa using hc)
        rw [hi] at this
        simp at this
    | some it => simp [hc, hi]
  · simp [hc]

theorem containsTrue_map_eq_any (tm : String → Bool) (l : List String) :
    ((l.map tm).contains true) = l.any tm := by
  rw [Bool.eq_iff_iff]
  simp [List.any_eq_true]

theorem lengthEq_map_eq_all (tm : String → Bool) (l : List String) :
    ((l.map tm).length == ((l.map tm).filter (fun x => x)).length) = l.all tm := by
  have h1 : ∀ bs : List Bool, (bs.length == (bs.filter (fun x => x)).length) = bs.all (fun x => x) := by
    intro bs
    induction bs with
    | nil => rfl
    | cons x xs ih =>
        cases x
        · simp [List.filter_cons, List.all_cons]
          intro hlen
          have := List.length_filter_le (fun x : Bool => x) xs
          omega
        · simp [List.filter_cons, List.all_cons, ← ih]
  rw [h1]
  rw [Bool.eq_iff_iff]
  simp [List.all_eq_true]

theorem getIsTagged_eval {ext : Externals} {sel exc : List String} {e : Entry}
    (hit : e.type = some "character" → e.item.isSome) :
    getIsTagged ext sel (some exc) e = .ok (tagKeepSpec ext sel exc e) := by
  have hm1 := exceptMap_congr (f := fun t => isElementTagged ext e t)
      (g := fun t => tagMatches ext e t) sel (fun t _ => isElementTagged_eval t hit)
  have hm2 := exceptMap_congr (f := fun t => isElementTagged ext e t)
      (g := fun t => tagMatches ext e t) exc (fun t _ => isElementTagged_eval t hit)
  unfold getIsTagged
  simp only [hm1, hm2]
  rw [containsTrue_map_eq_any, lengthEq_map_eq_all]
  by_cases ha : exc.any (tagMatches ext e) = true
  · simp [tagKeepSpec, ha]
  · have ha' : exc.any (tagMatches ext e) = false := by
      cases h : exc.any (tagMatches ext e)
      · rfl
      · exact absurd h ha
    by_cases hs : sel.all (tagMatches ext e) = true
    · simp [tagKeepSpec, ha', hs]
    · have hs' : sel.all (tagMatches ext e) = false := by
        cases h : sel.all (tagMatches ext e)
        · rfl
        · exact absurd h hs
      cases sel with
      | nil => simp at hs'
      | cons a as => simp [tagKeepSpec, ha', hs']

theorem tagFilter_empty {h : FilterHelper} {ext : Externals} {fields : List (String × List String)}
    (hv : h.filterData FILTER_TYPES.TAG = .obj fields)
    (hsel : fields.lookup "selected" = some [])
    (hexc : fields.lookup "excluded" = some [])
    (data : List Entry) : tagFilter h ext data = .ok data := by
  unfold tagFilter
  rw [hv]
  simp [hsel, hexc]

theorem tagFilter_eval {h : FilterHelper} {ext : Externals}
    {fields : List (String × List String)} {sel exc : List String} {data : List Entry}
    (hv : h.filterData FILTER_TYPES.TAG = .obj fields)
    (hsel : fields.lookup "selected" = some sel)
    (hexc : fields.lookup "excluded" = some exc)
    (hne : (sel.isEmpty && exc.isEmpty) = false)
    (hit : ∀ e ∈ data, e.type = some "character" → e.item.isSome) :
    tagFilter h ext data = .ok (data.filter (tagKeepSpec ext sel exc)) := by
  unfold tagFilter
  rw [hv]
  simp only [hsel, hexc, hne, Bool.false_eq_true, if_false]
  exact exceptFilter_congr data (fun e he => getIsTagged_eval (hit e he))

theorem jsSetDedup_contains (cs : List JSVal) (x : JSVal) :
    (jsSetDedup cs).contains x = cs.contains x := by
  rw [Bool.eq_iff_iff]
  simp [jsSetDedup_mem]

theorem hideCharactersAlreadyInDeck_eval {data : List Entry}
    (hit : ∀ d ∈ data.filter (fun e => e.type == some "deck"), d.item.isSome) :
    hideCharactersAlreadyInDeck data =
      .ok (data.filter (fun e =>
        !((specDeckMembers data).contains (.str (jsToString e.id))))) := by
  unfold hideCharactersAlreadyInDeck
  simp only [concatDeckChars_ok_of_items hit]
  congr 1
  apply List.filter_congr
  intro e _
  rw [show deckCharsOf (data.filter (fun e => e.type == some "deck")) = specDeckMembers data from rfl]
  rw [jsSetDedup_contains]
  cases hc : (specDeckMembers data).contains (.str (jsToString e.id)) <;> simp [hc]

/-! Restriction lemmas: a stage that succeeded on a list returns any list
of its survivors unchanged. -/

theorem exceptFilter_restrict {α : Type _} {pred : α → Except JsErr Bool} {L L1 R : List α}
    (h1 : exceptFilter pred L = .ok L1) (hRL : ∀ e ∈ R, e ∈ L) (hR1 : ∀ e ∈ R, e ∈ L1) :
    exceptFilter pred R = .ok R := by
  apply exceptFilter_all_true
  intro a ha
  rcases exceptFilter_ok_pred h1 a (hRL a ha) with ⟨b, hb⟩
  have hfil := exceptFilter_ok_eq h1
  have hmem : a ∈ L.filter (fun a => okTrue (pred a)) := hfil ▸ hR1 a ha
  have hT : okTrue (pred a) = true := (List.mem_filter.mp hmem).2
  rw [hb] at hT ⊢
  cases b
  · simp [okTrue] at hT
  · rfl

theorem searchFilter_restrict {h : FilterHelper} {ext : Externals} {L L1 R : List Entry}
    (h1 : searchFilter h ext L = .ok L1) (hR1 : ∀ e ∈ R, e ∈ L1) :
    searchFilter h ext R = .ok R := by
  cases ht : jsTruthy (h.filterData FILTER_TYPES.SEARCH) with
  | false => exact searchFilter_falsy R ht
  | true =>
      cases hv : h.filterData FILTER_TYPES.SEARCH with
      | str s =>
          have hs : s ≠ "" := by
            rw [hv] at ht
            simpa [jsTruthy] using ht
          rw [searchFilter_str hv hs] at h1
          rw [searchFilter_str hv hs]
          simp only [Except.ok.injEq] at h1
          congr 1
          apply List.filter_eq_self.mpr
          intro e he
          have := h1 ▸ hR1 e he
          exact (List.mem_filter.mp this).2
      | undefined => rw [hv] at ht; simp [jsTruthy] at ht
      | bool b =>
          rw [hv] at ht
          simp [jsTruthy] at ht
          subst ht
          unfold searchFilter at h1
          rw [hv] at h1
          simp [jsTruthy] at h1
      | num n =>
          rw [hv] at ht
          unfold searchFilter at h1
          rw [hv] at h1
          simp [jsTruthy] at ht
          simp [jsTruthy, ht] at h1
      | strList xs =>
          unfold searchFilter at h1
          rw [hv] at h1
          simp [jsTruthy] at h1
      | obj fields =>
          unfold searchFilter at h1
          rw [hv] at h1
          simp [jsTruthy] at h1

theorem groupFilter_restrict {h : FilterHelper} {L L1 R : List Entry}
    (h1 : groupFilter h L = .ok L1) (hR1 : ∀ e ∈ R, e ∈ L1) :
    groupFilter h R = .ok R := by
  cases ht : jsTruthy (h.filterData FILTER_TYPES.GROUP) with
  | false => exact groupFilter_falsy R ht
  | true =>
      rw [groupFilter_truthy L ht] at h1
      rw [groupFilter_truthy R ht]
      simp only [Except.ok.injEq] at h1
      congr 1
      apply List.filter_eq_self.mpr
      intro e he
      have := h1 ▸ hR1 e he
      exact (List.mem_filter.mp this).2

theorem favFilter_restrict {h : FilterHelper} {L L1 R : List Entry}
    (h1 : favFilter h L = .ok L1) (hRL : ∀ e ∈ R, e ∈ L) (hR1 : ∀ e ∈ R, e ∈ L1) :
    favFilter h R = .ok R := by
  cases ht : jsTruthy (h.filterData FILTER_TYPES.FAV) with
  | false => exact favFilter_falsy R ht
  | true =>
      unfold favFilter at h1 ⊢
      simp only [ht, Bool.true_eq_false, if_false] at h1 ⊢
      exact exceptFilter_restrict h1 hRL hR1

theorem tagFilter_restrict {h : FilterHelper} {ext : Externals} {L L1 R : List Entry}
    (h1 : tagFilter h ext L = .ok L1) (hRL : ∀ e ∈ R, e ∈ L) (hR1 : ∀ e ∈ R, e ∈ L1) :
    tagFilter h ext R = .ok R := by
  cases hv : h.filterData FILTER_TYPES.TAG with
  | obj fields =>
      cases hsel : fields.lookup "selected" with
      | none =>
          unfold tagFilter at h1
          rw [hv] at h1
          simp [hsel] at h1
      | some sel =>
          cases hexc : fields.lookup "excluded" with
          | some exc =>
              by_cases hemp : (sel.isEmpty && exc.isEmpty) = true
              · have hsel0 : sel = [] := by
                  have := (Bool.and_eq_true _ _).mp hemp
                  exact List.isEmpty_iff.mp this.1
                have hexc0 : exc = [] := by
                  have := (Bool.and_eq_true _ _).mp hemp
                  exact List.isEmpty_iff.mp this.2
                subst hsel0; subst hexc0
                exact tagFilter_empty hv hsel hexc R
              · have hne : (sel.isEmpty && exc.isEmpty) = false := by
                  cases hcb : (sel.isEmpty && exc.isEmpty)
                  · rfl
                  · exact absurd hcb hemp
                unfold tagFilter at h1 ⊢
                rw [hv] at h1 ⊢
                simp only [hsel, hexc, hne, Bool.false_eq_true, if_false] at h1 ⊢
                exact exceptFilter_restrict h1 hRL hR1
          | none =>
              by_cases hemp : sel.isEmpty = true
              · unfold tagFilter at h1
                rw [hv] at h1
                simp [hsel, hexc, hemp] at h1
              · have hne : sel.isEmpty = false := by
                  cases hcb : sel.isEmpty
                  · rfl
                  · exact absurd hcb hemp
                unfold tagFilter at h1 ⊢
                rw [hv] at h1 ⊢
                simp only [hsel, hexc, hne, Bool.false_eq_true, if_false] at h1 ⊢
                exact exceptFilter_restrict h1 hRL hR1
  | undefined =>
      unfold tagFilter at h1
      rw [hv] at h1
      simp at h1
  | bool b =>
      unfold tagFilter at h1
      rw [hv] at h1
      simp at h1
  | num n =>
      unfold tagFilter at h1
      rw [hv] at h1
      simp at h1
  | str s =>
      unfold tagFilter at h1
      rw [hv] at h1
      simp at h1
  | strList xs =>
      unfold tagFilter at h1
      rw [hv] at h1
      simp at h1

theorem wiSearchFilter_restrict {h : FilterHelper} {ext : Externals} {m : Entry → Bool}
    {L4 L5 R : List Entry}
    (hpw : ∀ data term, ext.fuzzySearchWorldInfo data term = (data.filter m).map Entry.uid)
    (hnd : (L4.map Entry.uid).Nodup)
    (h1 : wiSearchFilter h ext L4 = .ok L5)
    (hR5 : ∀ e ∈ R, e ∈ L5) :
    wiSearchFilter h ext R = .ok R := by
  cases ht : jsTruthy (h.filterData FILTER_TYPES.WORLD_INFO_SEARCH) with
  | false => exact wiSearchFilter_falsy R ht
  | true =>
      rw [wiSearchFilter_truthy L4 ht] at h1
      rw [wiSearchFilter_truthy R ht]
      rw [hpw] at h1
      rw [hpw]
      simp only [Except.ok.injEq] at h1
      have hmR : ∀ e ∈ R, m e = true := by
        intro e he
        have he5 := h1 ▸ hR5 e he
        rcases List.mem_filter.mp he5 with ⟨he4, hc⟩
        have : e.uid ∈ (L4.filter m).map Entry.uid := by simpa using hc
        rcases List.mem_map.mp this with ⟨e', he', huid⟩
        rcases List.mem_filter.mp he' with ⟨he'4, hme'⟩
        have heq : e' = e := List.inj_on_of_nodup_map hnd he'4 he4 huid
        rw [← heq]
        exact hme'
      congr 1
      apply List.filter_eq_self.mpr
      intro e he
      have : e.uid ∈ (R.filter m).map Entry.uid :=
        List.mem_map.mpr ⟨e, List.mem_filter.mpr ⟨he, hmR e he⟩, rfl⟩
      simpa using this

theorem hideCharactersAlreadyInDeck_restrict {L5 R R0 : List Entry}
    (h1 : hideCharactersAlreadyInDeck L5 = .ok R0)
    (hR0 : ∀ e ∈ R, e ∈ R0) (hsub : List.Sublist R L5) :
    hideCharactersAlreadyInDeck R = .ok R := by
  unfold hideCharactersAlreadyInDeck at h1 ⊢
  cases hcc : concatDeckChars (L5.filter (fun e => e.type == some "deck")) with
  | error e => simp [hcc] at h1
  | ok cs =>
      simp only [hcc] at h1
      simp only [Except.ok.injEq] at h1
      have hsubdecks :
          List.Sublist (R.filter (fun e => e.type == some "deck"))
            (L5.filter (fun e => e.type == some "deck")) := hsub.filter _
      rcases concatDeckChars_sublist hsubdecks hcc with ⟨cs', hcs', hsubcs⟩
      simp only [hcs']
      congr 1
      apply List.filter_eq_self.mpr
      intro e he
      have heR0 := h1 ▸ hR0 e he
      have hpred := (List.mem_filter.mp heR0).2
      have hnotin : ¬ (JSVal.str (jsToString e.id)) ∈ cs := by
        intro hmem
        rw [jsSetDedup_contains] at hpred
        have : cs.contains (JSVal.str (jsToString e.id)) = true := by simpa using hmem
        rw [this] at hpred
        simp at hpred
      have hnotin' : ¬ (JSVal.str (jsToString e.id)) ∈ cs' := fun hx => hnotin (hsubcs _ hx)
      rw [jsSetDedup_contains]
      have : cs'.contains (JSVal.str (jsToString e.id)) = false := by
        cases hc : cs'.contains (JSVal.str (jsToString e.id))
        · rfl
        · exact absurd (by simpa using hc) hnotin'
      rw [this]
      rfl

/-- C6 (amended): for a world-info fuzzy matcher that selects entries by a
per-entry criterion, and an input list whose uids are pairwise distinct,
`applyFilters` is idempotent: if it maps `L` to `R`, it maps `R` to `R`
unchanged. -/
theorem applyFilters_idem {h : FilterHelper} {ext : Externals} {L R : List Entry}
    (hpw : ∃ m : Entry → Bool, ∀ data term,
      ext.fuzzySearchWorldInfo data term = (data.filter m).map Entry.uid)
    (hnd : (L.map Entry.uid).Nodup)
    (h1 : applyFilters h ext L = .ok R) :
    applyFilters h ext R = .ok R := by
  rcases hpw with ⟨m, hpw⟩
  unfold applyFilters at h1
  rcases except_bind_ok h1 with ⟨L5, hchain5, hdedup⟩
  rcases except_bind_ok hchain5 with ⟨L4, hchain4, hwi⟩
  rcases except_bind_ok hchain4 with ⟨L3, hchain3, htag⟩
  rcases except_bind_ok hchain3 with ⟨L2, hchain2, hfav⟩
  rcases except_bind_ok hchain2 with ⟨L1, hsearch, hgroup⟩
  have s1 := searchFilter_ok_sublist hsearch
  have s2 := groupFilter_ok_sublist hgroup
  have s3 := favFilter_ok_sublist hfav
  have s4 := tagFilter_ok_sublist htag
  have s5 := wiSearchFilter_ok_sublist hwi
  have s6 := hideCharactersAlreadyInDeck_ok_sublist hdedup
  have mR5 : ∀ e ∈ R, e ∈ L5 := fun e he => s6.subset he
  have mR4 : ∀ e ∈ R, e ∈ L4 := fun e he => s5.subset (mR5 e he)
  have mR3 : ∀ e ∈ R, e ∈ L3 := fun e he => s4.subset (mR4 e he)
  have mR2 : ∀ e ∈ R, e ∈ L2 := fun e he => s3.subset (mR3 e he)
  have mR1 : ∀ e ∈ R, e ∈ L1 := fun e he => s2.subset (mR2 e he)
  have subL4 : List.Sublist L4 L := (s4.trans s3).trans (s2.trans s1)
  have hnd4 : (L4.map Entry.uid).Nodup := hnd.sublist (subL4.map Entry.uid)
  have e1 : searchFilter h ext R = .ok R := searchFilter_restrict hsearch mR1
  have e2 : groupFilter h R = .ok R := groupFilter_restrict hgroup mR2
  have e3 : favFilter h R = .ok R := favFilter_restrict hfav mR2 mR3
  have e4 : tagFilter h ext R = .ok R := tagFilter_restrict htag mR3 mR4
  have e5 : wiSearchFilter h ext R = .ok R := wiSearchFilter_restrict hpw hnd4 hwi mR5
  have e6 : hideCharactersAlreadyInDeck R = .ok R :=
    hideCharactersAlreadyInDeck_restrict hdedup (fun e he => he) s6
  unfold applyFilters
  simp [Bind.bind, Except.bind, e1, e2, e3, e4, e5, e6]

/-- C6 counterexample: with the world-info criterion set, a per-entry fuzzy
matcher and a concrete three-entry list (two entries sharing uid 5 and a
deck capturing the matching one), `applyFilters (applyFilters L)` differs
from `applyFilters L`: the first pass keeps the rejected twin through the
shared uid, then drops its matching witness in the deck stage, so the
second pass drops the twin too. -/
theorem applyFilters_not_idempotent :
    ¬ ((applyFilters wiHelper wiExt [wiEntryA, wiEntryB, wiDeckD] >>=
        applyFilters wiHelper wiExt) =
      applyFilters wiHelper wiExt [wiEntryA, wiEntryB, wiDeckD]) := by decide

/-- C6 witness: the amended idempotence theorem applied to a concrete run
with distinct uids. -/
theorem applyFilters_idem_witness :
    applyFilters wiHelper wiExt [wiDeckD] = .ok [wiDeckD] :=
  applyFilters_idem ⟨wiMatcher, fun _ _ => rfl⟩
    (by decide : (([wiEntryA, wiDeckD]).map Entry.uid).Nodup)
    (by decide : applyFilters wiHelper wiExt [wiEntryA, wiDeckD] = .ok [wiDeckD])

/-- C1 (amended): with every criteria kind at its default value (SEARCH "",
GROUP false, FAVORITE false, TAG with empty selected and excluded arrays,
WORLD_INFO_SEARCH ""), the five criteria-driven stages pass the list
through unchanged, and `applyFilters L` returns `L` itself provided the
always-active deck de-duplication stage drops nothing: every deck-kind
entry of `L` carries a payload and no entry's stringified identifier occurs
among the deck member lists of `L`. -/
theorem applyFilters_default_noop (h : FilterHelper) (ext : Externals) (L : List Entry)
    (fields : List (String × List String))
    (hse : h.filterData FILTER_TYPES.SEARCH = .str "")
    (hgr : h.filterData FILTER_TYPES.GROUP = .bool false)
    (hfa : h.filterData FILTER_TYPES.FAV = .bool false)
    (hta : h.filterData FILTER_TYPES.TAG = .obj fields)
    (hsel : fields.lookup "selected" = some [])
    (hexc : fields.lookup "excluded" = some [])
    (hwi : h.filterData FILTER_TYPES.WORLD_INFO_SEARCH = .str "")
    (hitems : ∀ d ∈ L, d.type = some "deck" → d.item.isSome)
    (hnocap : ∀ e ∈ L, ¬ (JSVal.str (jsToString e.id)) ∈ specDeckMembers L) :
    applyFilters h ext L = .ok L := by
  have e1 : searchFilter h ext L = .ok L := searchFilter_falsy L (by rw [hse]; rfl)
  have e2 : groupFilter h L = .ok L := groupFilter_falsy L (by rw [hgr]; rfl)
  have e3 : favFilter h L = .ok L := favFilter_falsy L (by rw [hfa]; rfl)
  have e4 : tagFilter h ext L = .ok L := tagFilter_empty hta hsel hexc L
  have e5 : wiSearchFilter h ext L = .ok L := wiSearchFilter_falsy L (by rw [hwi]; rfl)
  have hitf : ∀ d ∈ L.filter (fun e => e.type == some "deck"), d.item.isSome := by
    intro d hd
    rcases List.mem_filter.mp hd with ⟨hdL, hdty⟩
    exact hitems d hdL (by simpa using hdty)
  have e6 : hideCharactersAlreadyInDeck L = .ok L := by
    rw [hideCharactersAlreadyInDeck_eval hitf]
    congr 1
    apply List.filter_eq_self.mpr
    intro e he
    cases hc : (specDeckMembers L).contains (JSVal.str (jsToString e.id))
    · rfl
    · exact absurd (by simpa using hc) (hnocap e he)
  unfold applyFilters
  simp [Bind.bind, Except.bind, e1, e2, e3, e4, e5, e6]

/-- C1 counterexample: every criteria kind at its default, yet
`applyFilters` is not the identity: the deck de-duplication stage is always
registered and active, and a deck entry whose member list holds "1" removes
the character entry with stringified identifier "1". -/
theorem applyFilters_default_not_identity :
    applyFilters defaultFilterHelper extStub [deckStr1, charStr1] = .ok [deckStr1] ∧
    ¬ (applyFilters defaultFilterHelper extStub [deckStr1, charStr1] =
        .ok [deckStr1, charStr1]) := by
  constructor
  · decide
  · decide

/-- C1 witness: the amended theorem applied to a concrete deck-free list at
the default criteria. -/
theorem applyFilters_default_noop_witness :
    applyFilters defaultFilterHelper extStub [aliceChar, bobChar] = .ok [aliceChar, bobChar] :=
  applyFilters_default_noop defaultFilterHelper extStub [aliceChar, bobChar]
    [("excluded", []), ("selected", [])]
    (by decide) (by decide) (by decide) (by decide) (by decide) (by decide) (by decide)
    (by decide) (by decide)

/-- C2 (amended): with well-shaped criteria (SEARCH a
string, TAG an object carrying selected and excluded arrays, FAVORITE,
GROUP and WORLD_INFO_SEARCH arbitrary), no stage faults on any list whose entries all carry a
payload object: missing inner fields (name, favorite flag, avatar, member
list) degrade to "does not match".  The original claim fails for entries
with no payload object at all: the favorite stage (when FAVORITE is
truthy), the tag stage (on character-kind entries when a tag array is
nonempty) and the deck scan (on deck-kind entries) dereference the payload
and fault — see the counterexample. -/
theorem applyFilters_total (h : FilterHelper) (ext : Externals) (L : List Entry)
    (fields : List (String × List String)) (sel exc : List String) (s : String)
    (hse : h.filterData FILTER_TYPES.SEARCH = .str s)
    (hta : h.filterData FILTER_TYPES.TAG = .obj fields)
    (hsel : fields.lookup "selected" = some sel)
    (hexc : fields.lookup "excluded" = some exc)
    (hitems : ∀ e ∈ L, e.item.isSome) :
    ∃ out, applyFilters h ext L = .ok out := by
  have hstep1 : ∃ L1, searchFilter h ext L = .ok L1 := by
    cases ht : jsTruthy (h.filterData FILTER_TYPES.SEARCH) with
    | false => exact ⟨L, searchFilter_falsy L ht⟩
    | true =>
        have hsne : s ≠ "" := by
          rw [hse] at ht
          simpa [jsTruthy] using ht
        exact ⟨_, searchFilter_str hse hsne L⟩
  rcases hstep1 with ⟨L1, e1⟩
  have hit1 : ∀ e ∈ L1, e.item.isSome :=
    fun e he => hitems e ((searchFilter_ok_sublist e1).subset he)
  have hstep2 : ∃ L2, groupFilter h L1 = .ok L2 := by
    cases ht : jsTruthy (h.filterData FILTER_TYPES.GROUP) with
    | false => exact ⟨L1, groupFilter_falsy L1 ht⟩
    | true => exact ⟨_, groupFilter_truthy L1 ht⟩
  rcases hstep2 with ⟨L2, e2⟩
  have hit2 : ∀ e ∈ L2, e.item.isSome :=
    fun e he => hit1 e ((groupFilter_ok_sublist e2).subset he)
  have hstep3 : ∃ L3, favFilter h L2 = .ok L3 := by
    cases ht : jsTruthy (h.filterData FILTER_TYPES.FAV) with
    | false => exact ⟨L2, favFilter_falsy L2 ht⟩
    | true => exact ⟨_, favFilter_truthy_items ht hit2⟩
  rcases hstep3 with ⟨L3, e3⟩
  have hit3 : ∀ e ∈ L3, e.item.isSome :=
    fun e he => hit2 e ((favFilter_ok_sublist e3).subset he)
  have hstep4 : ∃ L4, tagFilter h ext L3 = .ok L4 := by
    by_cases hemp : (sel.isEmpty && exc.isEmpty) = true
    · have hsel0 : sel = [] := List.isEmpty_iff.mp ((Bool.and_eq_true _ _).mp hemp).1
      have hexc0 : exc = [] := List.isEmpty_iff.mp ((Bool.and_eq_true _ _).mp hemp).2
      subst hsel0; subst hexc0
      exact ⟨L3, tagFilter_empty hta hsel hexc L3⟩
    · have hne : (sel.isEmpty && exc.isEmpty) = false := by
        cases hcb : (sel.isEmpty && exc.isEmpty)
        · rfl
        · exact absurd hcb hemp
      exact ⟨_, tagFilter_eval hta hsel hexc hne (fun e he _ => hit3 e he)⟩
  rcases hstep4 with ⟨L4, e4⟩
  have hit4 : ∀ e ∈ L4, e.item.isSome :=
    fun e he => hit3 e ((tagFilter_ok_sublist e4).subset he)
  have hstep5 : ∃ L5, wiSearchFilter h ext L4 = .ok L5 := by
    cases ht : jsTruthy (h.filterData FILTER_TYPES.WORLD_INFO_SEARCH) with
    | false => exact ⟨L4, wiSearchFilter_falsy L4 ht⟩
    | true => exact ⟨_, wiSearchFilter_truthy L4 ht⟩
  rcases hstep5 with ⟨L5, e5⟩
  have hit5 : ∀ e ∈ L5, e.item.isSome :=
    fun e he => hit4 e ((wiSearchFilter_ok_sublist e5).subset he)
  have hitf : ∀ d ∈ L5.filter (fun e => e.type == some "deck"), d.item.isSome :=
    fun d hd => hit5 d (List.mem_filter.mp hd).1
  have e6 := hideCharactersAlreadyInDeck_eval hitf
  have hfinal : applyFilters h ext L =
      .ok (L5.filter (fun e =>
        !((specDeckMembers L5).contains (.str (jsToString e.id))))) := by
    unfold applyFilters
    simp [Bind.bind, Except.bind, e1, e2, e3, e4, e5, e6]
  exact ⟨_, hfinal⟩

/-- C2 counterexample: with the favorite criterion switched on, an entry
without a payload object makes the pipeline fault (the code dereferences
`entity.item.fav` on `undefined`) instead of treating the entry as a
non-match. -/
theorem applyFilters_malformed_entry_fault :
    applyFilters favOnHelper extStub [noItemEntry] = .error .typeError := by decide

/-- C2 witness: the amended totality theorem applied to a concrete store
with the favorite criterion on and entries that carry payloads. -/
theorem applyFilters_total_witness :
    ∃ out, applyFilters favOnHelper extStub [aliceChar, bobChar] = .ok out :=
  applyFilters_total favOnHelper extStub [aliceChar, bobChar]
    [("excluded", []), ("selected", [])] [] [] ""
    (by decide) (by decide) (by decide) (by decide) (by decide)

/-- C5 (confirmed): for a stored TAG criterion destructuring to `selected`
and `excluded` arrays with at least one nonempty, the tag predicate keeps
an entry iff it matches no excluded tag and (selected is empty or it
matches every selected tag) — an entry matching any excluded tag is dropped
regardless of its selected matches; with both arrays empty the input list
is returned unchanged.  Character-kind entries are assumed to carry a
payload (see C2 for the fault otherwise). -/
theorem tagFilter_spec (h : FilterHelper) (ext : Externals)
    (fields : List (String × List String)) (sel exc : List String) (L : List Entry)
    (hv : h.filterData FILTER_TYPES.TAG = .obj fields)
    (hsel : fields.lookup "selected" = some sel)
    (hexc : fields.lookup "excluded" = some exc)
    (hitem : ∀ e ∈ L, e.type = some "character" → e.item.isSome) :
    (¬ (sel = [] ∧ exc = []) →
      tagFilter h ext L = .ok (L.filter (tagKeepSpec ext sel exc))) ∧
    (sel = [] → exc = [] → tagFilter h ext L = .ok L) := by
  constructor
  · intro hne
    have hne' : (sel.isEmpty && exc.isEmpty) = false := by
      cases sel with
      | nil =>
          cases exc with
          | nil => exact absurd ⟨rfl, rfl⟩ hne
          | cons a as => simp
      | cons a as => simp
    exact tagFilter_eval hv hsel hexc hne' hitem
  · intro h1 h2
    subst h1; subst h2
    exact tagFilter_empty hv hsel hexc L

/-- C5 witness: the theorem applied to a concrete tag criterion (selected
"a", excluded "x") over two character entries: the entry tagged only "a"
survives, the entry tagged "a" and "x" is excluded. -/
theorem tagFilter_spec_witness :
    tagFilter tagHelper tagExt [aliceChar, bobChar] = .ok [aliceChar] := by
  have hthm := (tagFilter_spec tagHelper tagExt [("selected", ["a"]), ("excluded", ["x"])]
    ["a"] ["x"] [aliceChar, bobChar] (by decide) (by decide) (by decide) (by decide)).1
    (by simp)
  exact hthm.trans (by decide)

/-- C7 (confirmed): with a non-empty SEARCH string and fuzzy search
disabled, the search stage keeps exactly the entries whose payload name,
lower-cased, contains the trimmed lower-cased search string as a substring;
an entry whose payload or name is missing is excluded with no fault. -/
theorem searchFilter_exact_spec (h : FilterHelper) (ext : Externals) (s : String)
    (L : List Entry)
    (hv : h.filterData FILTER_TYPES.SEARCH = .str s) (hs : s ≠ "")
    (hfz : ext.fuzzy_search = false) :
    searchFilter h ext L = .ok (L.filter (exactSearchMatches (jsToLower (jsTrim s)))) := by
  rw [searchFilter_str hv hs]
  congr 1
  apply List.filter_congr
  intro e _
  unfold getIsValidSearch exactSearchMatches
  rw [hfz]
  simp

/-- C7 witness: the theorem applied to the search string " ALice " over the
scenario list: the character named "Alice" and the group named "Alice
Group" survive, "Bob" and the payload-less entry are excluded. -/
theorem searchFilter_exact_spec_witness :
    searchFilter searchHelper extStub [aliceChar, bobChar, aliceGroup, noItemEntry] =
      .ok [aliceChar, aliceGroup] := by
  have hthm := searchFilter_exact_spec searchHelper extStub " ALice "
    [aliceChar, bobChar, aliceGroup, noItemEntry] (by decide) (by decide) (by decide)
  exact hthm.trans (by decide)

/-- C8 (confirmed): with a non-empty SEARCH string and fuzzy search
enabled, the search stage keeps an entry iff it is character-kind with its
integer-parsed identifier in the fuzzy character result set, or group-kind
with its stringified identifier in the fuzzy group result set; entries of
every other kind are dropped. -/
theorem searchFilter_fuzzy_spec (h : FilterHelper) (ext : Externals) (s : String)
    (L : List Entry)
    (hv : h.filterData FILTER_TYPES.SEARCH = .str s) (hs : s ≠ "")
    (hfz : ext.fuzzy_search = true) :
    searchFilter h ext L =
      .ok (L.filter (fuzzySearchKeepSpec ext (jsToLower (jsTrim s)))) := by
  rw [searchFilter_str hv hs]
  congr 1
  apply List.filter_congr
  intro e _
  unfold getIsValidSearch fuzzySearchKeepSpec
  rw [hfz]
  by_cases hc : (e.type == some "character") = true
  · have hc' : e.type = some "character" := by simpa using hc
    have hg : (e.type == some "group") = false := by simp [hc']
    simp [hc, hg]
  · have hc0 : (e.type == some "character") = false := by
      cases hcb : (e.type == some "character")
      · rfl
      · exact absurd hcb hc
    by_cases hg : (e.type == some "group") = true
    · simp [hc0, hg]
    · have hg0 : (e.type == some "group") = false := by
        cases hgb : (e.type == some "group")
        · rfl
        · exact absurd hgb hg
      simp [hc0, hg0]

/-- C8 witness: the theorem applied to a fuzzy result fixture where
character 1 and group "g1" match the folded term "alice": the character and
the group survive, the non-matching character and the kindless entry are
dropped. -/
theorem searchFilter_fuzzy_spec_witness :
    searchFilter searchHelper fuzzyExt [aliceChar, bobChar, aliceGroup, noItemEntry] =
      .ok [aliceChar, aliceGroup] := by
  have hthm := searchFilter_fuzzy_spec searchHelper fuzzyExt " ALice "
    [aliceChar, bobChar, aliceGroup, noItemEntry] (by decide) (by decide) (by decide)
  exact hthm.trans (by decide)

/-- C9 (amended): the deck de-duplication stage collects the member values
of all deck-kind entries as stored — the members are NOT stringified — and
drops exactly the entries whose stringified identifier, as a string value,
is strictly equal to some collected member, keeping all others (deck-kind
entries need a payload, see C2).  The claim's scenario holds (see the
witness); its stringified-member-union reading fails when a member is not a
string (see the counterexample). -/
theorem hideCharactersAlreadyInDeck_spec (L : List Entry)
    (hitems : ∀ d ∈ L, d.type = some "deck" → d.item.isSome) :
    hideCharactersAlreadyInDeck L =
      .ok (L.filter (fun e =>
        !((specDeckMembers L).contains (.str (jsToString e.id))))) := by
  apply hideCharactersAlreadyInDeck_eval
  intro d hd
  rcases List.mem_filter.mp hd with ⟨hdL, hdty⟩
  exact hitems d hdL (by simpa using hdty)

/-- C9 counterexample: a deck whose member list holds the number 1 does not
drop the character with string identifier "1" — the strict comparison of
the stringified identifier against the raw member fails — while the
claim's union of stringified members would drop it. -/
theorem hideCharactersAlreadyInDeck_members_not_stringified :
    hideCharactersAlreadyInDeck [deckNum1, charStr1] = .ok [deckNum1, charStr1] ∧
    specDeckClaimOutput [deckNum1, charStr1] = [deckNum1] := by
  constructor
  · decide
  · decide

/-- C9 witness: the amended theorem applied to the claim's scenario: deck
with member "1", characters with numeric identifiers 1 and 2 — character 1
is dropped, character 2 and the deck itself are kept. -/
theorem hideCharactersAlreadyInDeck_spec_witness :
    hideCharactersAlreadyInDeck [deckStr1, charNum1, charNum2] = .ok [deckStr1, charNum2] := by
  have hthm := hideCharactersAlreadyInDeck_spec [deckStr1, charNum1, charNum2] (by decide)
  exact hthm.trans (by decide)

/-- C3 (amended): `getFilterData` returns the currently stored criteria
value for any kind; for a kind outside the registered enumeration it
returns `undefined` on a fresh store — no `UnknownFilterKind` fault exists
in the code, the read is a plain total property access. -/
theorem getFilterData_total (h : FilterHelper) (k : String) :
    FilterHelper.getFilterData h k = h.filterData k ∧
    (¬ k ∈ registeredFilterTypes →
      FilterHelper.getFilterData defaultFilterHelper k = .undefined) := by
  constructor
  · rfl
  · intro hk
    simp only [registeredFilterTypes, List.mem_cons, List.not_mem_nil, or_false] at hk
    push_neg at hk
    obtain ⟨h1, h2, h3, h4, h5⟩ := hk
    simp [FilterHelper.getFilterData, defaultFilterHelper, defaultFilterData,
      h1, h2, h3, h4, h5]

/-- C3 counterexample: reading an unregistered kind does not fail — it
returns `undefined` normally, because the code is a bare property read on
the criteria object. -/
theorem getFilterData_unregistered_no_fault :
    FilterHelper.getFilterData defaultFilterHelper "bogus_kind" = .undefined := by decide

/-- C3 witness: the theorem applied to a registered and to an unregistered
kind on a fresh store. -/
theorem getFilterData_total_witness :
    FilterHelper.getFilterData defaultFilterHelper FILTER_TYPES.SEARCH =
      defaultFilterHelper.filterData FILTER_TYPES.SEARCH ∧
    FilterHelper.getFilterData defaultFilterHelper "bogus" = .undefined :=
  ⟨(getFilterData_total defaultFilterHelper FILTER_TYPES.SEARCH).1,
   (getFilterData_total defaultFilterHelper "bogus").2 (by decide)⟩

theorem obj_fields_eq_of_lookup :
    ∀ (fs gs : List (String × List String)),
      fs.map Prod.fst = gs.map Prod.fst →
      (fs.map Prod.fst).Nodup →
      (∀ kv ∈ fs, gs.lookup kv.1 = some kv.2) → fs = gs
  | [], [], _, _, _ => rfl
  | [], kw :: gs, hkeys, _, _ => by simp at hkeys
  | kv :: fs, [], hkeys, _, _ => by simp at hkeys
  | kv :: fs, kw :: gs, hkeys, hnod, hall => by
      obtain ⟨hk, hkeys'⟩ : kv.1 = kw.1 ∧ fs.map Prod.fst = gs.map Prod.fst := by
        simpa using hkeys
      have hhead := hall kv (by simp)
      rw [List.lookup_cons] at hhead
      rw [show (kv.1 == kw.1) = true by simpa using hk] at hhead
      simp at hhead
      have hkv : kv = kw := Prod.ext hk hhead.symm
      have htail : ∀ kv2 ∈ fs, gs.lookup kv2.1 = some kv2.2 := by
        intro kv2 hkv2
        have hne : kv2.1 ≠ kv.1 := by
          intro heq
          have hmem : kv2.1 ∈ fs.map Prod.fst := List.mem_map.mpr ⟨kv2, hkv2, rfl⟩
          rw [List.map_cons] at hnod
          exact (List.nodup_cons.mp hnod).1 (heq ▸ hmem)
        have := hall kv2 (by simp [hkv2])
        rw [List.lookup_cons] at this
        rw [show (kv2.1 == kw.1) = false by simp [hk ▸ hne]] at this
        exact this
      have hrec := obj_fields_eq_of_lookup fs gs hkeys'
        ((List.nodup_cons.mp (List.map_cons Prod.fst kv fs ▸ hnod)).2) htail
      rw [hkv, hrec]

theorem deepEqSpec_eq_of_sameKeys {v w : JSVal} (hkeys : objKeys v = objKeys w)
    (hnod : keysNodup v = true) (hde : deepEqSpec v w = true) : v = w := by
  cases v with
  | undefined =>
      cases w with
      | undefined => rfl
      | bool b => simp [deepEqSpec] at hde
      | num n => simp [deepEqSpec] at hde
      | str s => simp [deepEqSpec] at hde
      | strList xs => simp [deepEqSpec] at hde
      | obj fields => simp [deepEqSpec] at hde
  | bool a =>
      cases w <;> simp [deepEqSpec] at hde
      rw [hde]
  | num a =>
      cases w <;> simp [deepEqSpec] at hde
      rw [hde]
  | str a =>
      cases w <;> simp [deepEqSpec] at hde
      rw [hde]
  | strList a =>
      cases w <;> simp [deepEqSpec] at hde
      rw [hde]
  | obj fs =>
      cases w with
      | obj gs =>
          simp only [deepEqSpec, Bool.and_eq_true, List.all_eq_true] at hde
          have hkeys' : fs.map Prod.fst = gs.map Prod.fst := by
            simpa [objKeys] using hkeys
          have hnod' : (fs.map Prod.fst).Nodup := by
            simpa [keysNodup] using hnod
          have hall : ∀ kv ∈ fs, gs.lookup kv.1 = some kv.2 := by
            intro kv hkv
            have := hde.1 kv hkv
            simpa using this
          rw [obj_fields_eq_of_lookup fs gs hkeys' hnod' hall]
      | undefined => simp [deepEqSpec] at hde
      | bool b => simp [deepEqSpec] at hde
      | num n => simp [deepEqSpec] at hde
      | str s => simp [deepEqSpec] at hde
      | strList xs => simp [deepEqSpec] at hde

/-- C4 (amended): with `suppressNotify` false, `setFilterData` invokes the
notifier exactly once when the `JSON.stringify` serializations of the old
and new values differ and not at all when they coincide — the change test
is serialization equality, not deep structural equality; with
`suppressNotify` true it never notifies.  Deep structural equality does
guarantee silence when the two values carry their object keys in the same
stored order (without duplicates) — the counterexample shows it fails to
when only the key order differs. -/
theorem setFilterData_notify_serialization (h : FilterHelper) (k : String) (v : JSVal) :
    ((h.setFilterData k v false).2 =
      if jsonStringify (h.filterData k) = jsonStringify v then 0 else 1) ∧
    ((h.setFilterData k v true).2 = 0) ∧
    (objKeys (h.filterData k) = objKeys v → keysNodup (h.filterData k) = true →
      deepEqSpec (h.filterData k) v = true → (h.setFilterData k v false).2 = 0) := by
  refine ⟨?_, ?_, ?_⟩
  · by_cases hj : jsonStringify (h.filterData k) = jsonStringify v
    · simp [FilterHelper.setFilterData, hj]
    · simp [FilterHelper.setFilterData, hj]
  · simp [FilterHelper.setFilterData]
  · intro hkeys hnod hde
    have : h.filterData k = v := deepEqSpec_eq_of_sameKeys hkeys hnod hde
    simp [FilterHelper.setFilterData, this]

/-- C4 counterexample: storing a TAG value that is deep-structurally equal
to the stored default but lists its object keys in the other order does
invoke the notifier (the serializations differ), contradicting the claim
that deep-equal updates never notify. -/
theorem setFilterData_deepEqual_notifies :
    deepEqSpec (defaultFilterHelper.filterData FILTER_TYPES.TAG)
      (.obj [("selected", []), ("excluded", [])]) = true ∧
    (defaultFilterHelper.setFilterData FILTER_TYPES.TAG
      (.obj [("selected", []), ("excluded", [])]) false).2 = 1 := by
  constructor
  · decide
  · decide

/-- C4 witness: the amended theorem applied to concrete updates of the
favorite criterion: a differing value notifies exactly once, an identical
value (same keys, deep-equal) does not notify. -/
theorem setFilterData_notify_serialization_witness :
    (defaultFilterHelper.setFilterData FILTER_TYPES.FAV (.bool true) false).2 = 1 ∧
    (defaultFilterHelper.setFilterData FILTER_TYPES.FAV (.bool false) false).2 = 0 := by
  constructor
  · rw [(setFilterData_notify_serialization defaultFilterHelper FILTER_TYPES.FAV
      (.bool true)).1]
    decide
  · exact (setFilterData_notify_serialization defaultFilterHelper FILTER_TYPES.FAV
      (.bool false)).2.2 (by decide) (by decide) (by decide)

/-- C10 (confirmed): `setFilterData` stores exactly the given value for the
given kind — also when the value is deep-equal to the old one or the
suppress flag is set — and leaves the stored criteria of every other kind
and the registered stage-key list unchanged. -/
theorem setFilterData_frame (h : FilterHelper) (k : String) (v : JSVal) (s : Bool) :
    ((h.setFilterData k v s).1.filterData k = v) ∧
    (∀ k2, k2 ≠ k → (h.setFilterData k v s).1.filterData k2 = h.filterData k2) ∧
    ((h.setFilterData k v s).1.filterFunctionKeys = h.filterFunctionKeys) := by
  refine ⟨?_, ?_, rfl⟩
  · simp [FilterHelper.setFilterData]
  · intro k2 hk2
    simp [FilterHelper.setFilterData, hk2]

/-- C10 witness: the frame theorem applied to a suppressed favorite update
on a fresh store: the favorite value is replaced, the tag value is
untouched. -/
theorem setFilterData_frame_witness :
    (defaultFilterHelper.setFilterData FILTER_TYPES.FAV (.bool true) true).1.filterData
      FILTER_TYPES.FAV = .bool true ∧
    (defaultFilterHelper.setFilterData FILTER_TYPES.FAV (.bool true) true).1.filterData
      FILTER_TYPES.TAG = defaultFilterHelper.filterData FILTER_TYPES.TAG :=
  ⟨(setFilterData_frame defaultFilterHelper FILTER_TYPES.FAV (.bool true) true).1,
   (setFilterData_frame defaultFilterHelper FILTER_TYPES.FAV (.bool true) true).2.1
     FILTER_TYPES.TAG (by decide)⟩
